import Mathlib

/-
Verification of the user CRUD service in src/app.py.

The service is a FastAPI application over a SQLite table `users`
(SQLAlchemy declarative model `User` with columns id, username, password)
exposing three routes:

  POST   /create_user            (handler create_user, src/app.py lines 68-81)
  GET    /get_users              (handler get_users,   src/app.py lines 85-88)
  DELETE /delete_user/{user_id}  (handler delete_user, src/app.py lines 91-107)

The embedding below models the users table as a list of rows in rowid
order and each route handler as a pure function from the request data and
the table to a response and the resulting table.  Requests are handled
sequentially, matching the per-request session discipline of get_db.
-/

namespace App

/-- A JSON scalar value as it appears in the request and response bodies
of this service: the only field types are integers and strings. -/
inductive JsonVal where
  | num (n : Int)
  | str (s : String)
deriving DecidableEq, Repr

/-- A JSON object, as a list of key/value pairs.  JSON parsing on the
python side produces a dict, so keys are treated as distinct. -/
abbrev JsonObj := List (String × JsonVal)

/-- Field lookup in a JSON object. -/
def lookupField (body : JsonObj) (k : String) : Option JsonVal :=
  (body.find? (fun kv => kv.fst == k)).map (fun kv => kv.snd)

/-- A row of the `users` table: SQLAlchemy model `User` (src/app.py lines
37-41) with columns id (integer primary key), username, password. -/
structure User where
  id : Nat
  username : String
  password : String
deriving DecidableEq, Repr

/-- The `users` table, in rowid order. -/
abbrev Table := List User

/-- Embeds `db.query(User).filter(User.username == u).first()`
(src/app.py line 71): the first row whose username equals u, if any. -/
def find_by_username (t : Table) (u : String) : Option User :=
  t.find? (fun r => r.username == u)

/-- Embeds `db.query(User).filter(User.id == user_id).first()`
(src/app.py line 94).  The route parses user_id as a python int, so the
lookup key is an integer that may lie outside the range of stored ids. -/
def find_by_id (t : Table) (uid : Int) : Option User :=
  t.find? (fun r => (r.id : Int) == uid)

/-- The largest id present in the table (0 when the table is empty). -/
def maxId (t : Table) : Nat :=
  (t.map (fun r => r.id)).foldr max 0

/-- The id SQLite assigns to a newly inserted row.  The column is
declared `Column(Integer, Sequence("user_id_seq"), primary_key=True)`
(src/app.py line 39); the SQLite dialect ignores the Sequence and, with
no AUTOINCREMENT keyword, SQLite assigns the new rowid as one more than
the largest rowid currently in the table (1 when the table is empty).
Ids of deleted rows can therefore be reassigned. -/
def nextRowId (t : Table) : Nat :=
  maxId t + 1

/-- The request body schema of POST /create_user: pydantic model
UserCreate (src/app.py lines 47-49) with required string fields
username and password. -/
structure UserCreate where
  username : String
  password : String
deriving DecidableEq, Repr

/-- Pydantic validation of a request body against UserCreate: both
required fields must be present with string values; extra fields are
ignored (the pydantic default, no extra-field config in src/app.py). -/
def validateUserCreate (body : JsonObj) : Option UserCreate :=
  match lookupField body "username", lookupField body "password" with
  | some (.str u), some (.str p) => some ⟨u, p⟩
  | _, _ => none

/-- The serialized form of a User row returned by create_user.  The
create_user route declares no response_model (src/app.py line 68) and
returns the ORM object itself, so FastAPI serializes every mapped column
via jsonable_encoder (which drops only SQLAlchemy-internal keys starting
with underscore-sa): the payload carries id, username AND password. -/
def encodeUserFull (u : User) : JsonObj :=
  [("id", .num u.id), ("username", .str u.username), ("password", .str u.password)]

/-- The serialized form of a User row filtered through
`response_model=UserResponse` (src/app.py lines 52-54, 85, 91): only the
id and username fields of the pydantic UserResponse model are emitted. -/
def encodeUserResponse (u : User) : JsonObj :=
  [("id", .num u.id), ("username", .str u.username)]

/-- The outcome of a route invocation at the HTTP boundary. -/
inductive RouteResult (α : Type) where
  | ok (body : α)
  | httpError (status : Nat) (detail : String)
  | validationError
deriving DecidableEq, Repr

/-- Handler create_user (src/app.py lines 68-81): look up the username;
if a row exists, raise HTTPException 400 "Username already registered";
otherwise insert a new row (SQLite assigns nextRowId) and return the ORM
object, serialized with all columns since no response_model is set. -/
def create_user (uc : UserCreate) (t : Table) : RouteResult JsonObj × Table :=
  match find_by_username t uc.username with
  | some _ => (.httpError 400 "Username already registered", t)
  | none =>
    let u : User := ⟨nextRowId t, uc.username, uc.password⟩
    (.ok (encodeUserFull u), t ++ [u])

/-- Handler get_users (src/app.py lines 85-88): return all rows,
each filtered through response_model UserResponse. -/
def get_users (t : Table) : RouteResult (List JsonObj) × Table :=
  (.ok (t.map encodeUserResponse), t)

/-- Handler delete_user (src/app.py lines 91-107): look up the row by
id; if present, delete that row (by primary key) and return it filtered
through response_model UserResponse; otherwise raise HTTPException 404
"User not found". -/
def delete_user (uid : Int) (t : Table) : RouteResult JsonObj × Table :=
  match find_by_id t uid with
  | some u => (.ok (encodeUserResponse u), t.filter (fun r => r.id != u.id))
  | none => (.httpError 404 "User not found", t)

/-- The full POST /create_user route: FastAPI validates the body against
UserCreate before the handler body runs; a failing validation yields a
422 response and the handler never executes. -/
def post_create_user (body : JsonObj) (t : Table) : RouteResult JsonObj × Table :=
  match validateUserCreate body with
  | none => (.validationError, t)
  | some uc => create_user uc t

/-- Accumulator pass over the digits of an unsigned decimal literal:
fails on the first non-digit character. -/
def parseNatDigits : List Char → Nat → Option Nat
  | [], acc => some acc
  | c :: cs, acc =>
    if c.isDigit then parseNatDigits cs (acc * 10 + (c.toNat - 48)) else none

/-- Pydantic coercion of the {user_id} path segment to a python int
(src/app.py line 92, `user_id: int`): an optionally signed string of
decimal digits; anything else fails request validation before the
handler body runs. -/
def parsePathInt (s : String) : Option Int :=
  match s.data with
  | [] => none
  | '-' :: cs =>
    (match cs with
     | [] => none
     | _ => (parseNatDigits cs 0).map (fun n => -(n : Int)))
  | '+' :: cs =>
    (match cs with
     | [] => none
     | _ => (parseNatDigits cs 0).map (fun n => (n : Int)))
  | cs => (parseNatDigits cs 0).map (fun n => (n : Int))

/-- The full DELETE /delete_user/{user_id} route: the raw path segment
must coerce to an int before the handler body runs; a failing coercion
yields a 422 response and the handler never executes. -/
def route_delete_user (raw : String) (t : Table) : RouteResult JsonObj × Table :=
  match parsePathInt raw with
  | none => (.validationError, t)
  | some uid => delete_user uid t

/-- A client request to the service, as received on the wire. -/
inductive Op where
  | create (body : JsonObj)
  | delete (raw : String)
  | list
deriving Repr

/-- The table after one request is processed. -/
def stepT (t : Table) : Op → Table
  | .create body => (post_create_user body t).2
  | .delete raw => (route_delete_user raw t).2
  | .list => (get_users t).2

/-- The table after a sequence of requests is processed sequentially. -/
def runT (t : Table) : List Op → Table
  | [] => t
  | op :: ops => runT (stepT t op) ops

/-- The id assigned by a create request, when the request passes
validation and the duplicate-username check (none otherwise). -/
def createdId (body : JsonObj) (t : Table) : Option Nat :=
  match validateUserCreate body with
  | none => none
  | some uc =>
    match find_by_username t uc.username with
    | some _ => none
    | none => some (nextRowId t)

/-- Ghost history: the ids ever assigned by the service along a request
sequence, in order of assignment, starting from table t and the already
recorded history acc. -/
def assignedAfter (t : Table) (acc : List Nat) : List Op → List Nat
  | [] => acc
  | .create body :: ops =>
    (match createdId body t with
     | some i => assignedAfter (stepT t (.create body)) (acc ++ [i]) ops
     | none => assignedAfter (stepT t (.create body)) acc ops)
  | op :: ops => assignedAfter (stepT t op) acc ops

/-- Whether a request is a create that succeeds against table t. -/
def isSuccCreate (t : Table) : Op → Bool
  | .create body => (createdId body t).isSome
  | _ => false

/-- Whether a request is a delete that succeeds against table t. -/
def isSuccDelete (t : Table) : Op → Bool
  | .delete raw =>
    (match parsePathInt raw with
     | some uid => (find_by_id t uid).isSome
     | none => false)
  | _ => false

/-- The number of successful creates along a request sequence run from t. -/
def succCreates (t : Table) : List Op → Nat
  | [] => 0
  | op :: ops => (if isSuccCreate t op then 1 else 0) + succCreates (stepT t op) ops

/-- The number of successful deletes along a request sequence run from t. -/
def succDeletes (t : Table) : List Op → Nat
  | [] => 0
  | op :: ops => (if isSuccDelete t op then 1 else 0) + succDeletes (stepT t op) ops

/-- A well-formed users table: ids are pairwise distinct (the primary
key constraint) and usernames are pairwise distinct (the unique column
constraint, src/app.py line 40). -/
def GoodTable (t : Table) : Prop :=
  (t.map (fun r => r.id)).Nodup ∧ (t.map (fun r => r.username)).Nodup

/-- Every id present in the table is bounded by maxId. -/
theorem mem_id_le_maxId {t : Table} {r : User} (h : r ∈ t) : r.id ≤ maxId t := by
  induction t with
  | nil => cases h
  | cons a t ih =>
    rcases List.mem_cons.mp h with h | h
    · subst h
      simp only [maxId, List.map_cons, List.foldr_cons]
      exact Nat.le_max_left _ _
    · refine Nat.le_trans (ih h) ?_
      simp only [maxId, List.map_cons, List.foldr_cons]
      exact Nat.le_max_right _ _

/-- Every id present in the table is strictly below the next assigned id. -/
theorem mem_id_lt_nextRowId {t : Table} {r : User} (h : r ∈ t) : r.id < nextRowId t :=
  Nat.lt_succ_of_le (mem_id_le_maxId h)

/-- The username lookup fails exactly when no row carries the username. -/
theorem find_by_username_eq_none {t : Table} {u : String} :
    find_by_username t u = none ↔ ∀ r ∈ t, r.username ≠ u := by
  simp [find_by_username, List.find?_eq_none]

/-- A successful username lookup returns a row of the table carrying the
username. -/
theorem find_by_username_mem {t : Table} {u : String} {r : User}
    (h : find_by_username t u = some r) : r ∈ t ∧ r.username = u :=
  ⟨List.mem_of_find?_eq_some h, by simpa using List.find?_some h⟩

/-- If some row carries the username, the lookup succeeds. -/
theorem find_by_username_isSome {t : Table} {u : String}
    (h : ∃ r ∈ t, r.username = u) : ∃ r, find_by_username t u = some r := by
  have : (t.find? (fun r => r.username == u)).isSome := by
    rw [List.find?_isSome]
    obtain ⟨r, hr, he⟩ := h
    exact ⟨r, hr, by simp [he]⟩
  exact Option.isSome_iff_exists.mp this

/-- The id lookup fails exactly when no row carries the id. -/
theorem find_by_id_eq_none {t : Table} {uid : Int} :
    find_by_id t uid = none ↔ ∀ r ∈ t, (r.id : Int) ≠ uid := by
  simp [find_by_id, List.find?_eq_none]

/-- A successful id lookup returns a row of the table carrying the id. -/
theorem find_by_id_mem {t : Table} {uid : Int} {u : User}
    (h : find_by_id t uid = some u) : u ∈ t ∧ (u.id : Int) = uid :=
  ⟨List.mem_of_find?_eq_some h, by simpa using List.find?_some h⟩

/-- Filtering away an id that occurs nowhere leaves the table unchanged. -/
theorem filter_ne_of_all_ne {t : Table} {i : Nat} (h : ∀ r ∈ t, r.id ≠ i) :
    t.filter (fun r => r.id != i) = t := by
  apply List.filter_eq_self.mpr
  intro r hr
  simpa using h r hr

/-- With pairwise-distinct ids, deleting by the id of a present row
removes exactly one row. -/
theorem length_filter_of_nodup {t : Table} {u : User}
    (hnd : (t.map (fun r => r.id)).Nodup) (hu : u ∈ t) :
    (t.filter (fun r => r.id != u.id)).length + 1 = t.length := by
  induction t with
  | nil => cases hu
  | cons a t ih =>
    rw [List.map_cons, List.nodup_cons] at hnd
    obtain ⟨ha, hnd'⟩ := hnd
    by_cases hid : a.id = u.id
    · have hrest : ∀ r ∈ t, r.id ≠ u.id := by
        intro r hr he
        exact ha (by rw [hid, ← he]; exact List.mem_map_of_mem _ hr)
      have hfil : t.filter (fun r => r.id != u.id) = t := filter_ne_of_all_ne hrest
      simp [List.filter_cons, hid, hfil]
    · have hu' : u ∈ t := by
        rcases List.mem_cons.mp hu with h | h
        · exact absurd (congrArg User.id h.symm) hid
        · exact h
      have hcond : (a.id != u.id) = true := by simpa using hid
      rw [List.filter_cons, if_pos hcond]
      have hih := ih hnd' hu'
      simp only [List.length_cons]
      omega

/-- With pairwise-distinct ids, two rows of the table with the same id
are the same row. -/
theorem id_inj_of_nodup {t : Table} {r s : User}
    (hnd : (t.map (fun x => x.id)).Nodup) (hr : r ∈ t) (hs : s ∈ t)
    (he : r.id = s.id) : r = s :=
  List.inj_on_of_nodup_map hnd hr hs he

/-- Characterization of a successful create: validation passed, the
duplicate check found nothing, the new row gets id nextRowId, and the
route returns the fully serialized row and appends it to the table. -/
theorem createdId_some {body : JsonObj} {t : Table} {i : Nat}
    (h : createdId body t = some i) :
    ∃ uc, validateUserCreate body = some uc ∧
      find_by_username t uc.username = none ∧
      i = nextRowId t ∧
      post_create_user body t =
        (.ok (encodeUserFull ⟨nextRowId t, uc.username, uc.password⟩),
         t ++ [⟨nextRowId t, uc.username, uc.password⟩]) := by
  unfold createdId at h
  split at h
  · exact absurd h (by simp)
  case _ uc hv =>
    split at h
    · exact absurd h (by simp)
    case _ hf =>
      refine ⟨uc, hv, hf, by simpa using h.symm, ?_⟩
      simp [post_create_user, create_user, hv, hf]

/-- Characterization of a failed create: the table is unchanged. -/
theorem createdId_none {body : JsonObj} {t : Table}
    (h : createdId body t = none) : (post_create_user body t).2 = t := by
  unfold createdId at h
  split at h
  case _ hv => simp [post_create_user, hv]
  case _ uc hv =>
    split at h
    case _ r hf => simp [post_create_user, create_user, hv, hf]
    case _ hf => exact absurd h (by simp)

/-- The delete route leaves the table unchanged unless the id resolves
to a row, in which case that id is filtered out. -/
theorem route_delete_user_table {raw : String} {t : Table} :
    (route_delete_user raw t).2 = t ∨
    ∃ uid u, parsePathInt raw = some uid ∧ find_by_id t uid = some u ∧
      (route_delete_user raw t).2 = t.filter (fun r => r.id != u.id) := by
  cases hp : parsePathInt raw with
  | none =>
    left
    simp [route_delete_user, hp]
  | some uid =>
    cases hf : find_by_id t uid with
    | none =>
      left
      simp [route_delete_user, delete_user, hp, hf]
    | some u =>
      right
      exact ⟨uid, u, rfl, hf, by simp [route_delete_user, delete_user, hp, hf]⟩

/-- Processing one request preserves table well-formedness: the create
handler inserts only after the duplicate-username check fails to find a
row and SQLite assigns a fresh id above every present id; the delete
handler only removes rows. -/
theorem goodTable_stepT {t : Table} (h : GoodTable t) (op : Op) :
    GoodTable (stepT t op) := by
  obtain ⟨hid, hname⟩ := h
  cases op with
  | create body =>
    cases hc : createdId body t with
    | none =>
      simp only [stepT]
      rw [createdId_none hc]
      exact ⟨hid, hname⟩
    | some i =>
      obtain ⟨uc, hv, hf, hi, heq⟩ := createdId_some hc
      simp only [stepT, heq]
      constructor
      · rw [List.map_append, List.nodup_append]
        refine ⟨hid, List.nodup_singleton _, ?_⟩
        intro x hx hx'
        simp only [List.map_cons, List.map_nil, List.mem_singleton] at hx'
        subst hx'
        obtain ⟨r, hr, hre⟩ := List.mem_map.mp hx
        have := mem_id_lt_nextRowId hr
        omega
      · rw [List.map_append, List.nodup_append]
        refine ⟨hname, List.nodup_singleton _, ?_⟩
        intro x hx hx'
        simp only [List.map_cons, List.map_nil, List.mem_singleton] at hx'
        subst hx'
        obtain ⟨r, hr, hre⟩ := List.mem_map.mp hx
        exact (find_by_username_eq_none.mp hf r hr) hre
  | delete raw =>
    rcases @route_delete_user_table raw t with heq | ⟨uid, u, hp, hf, heq⟩
    · simp only [stepT]
      rw [heq]
      exact ⟨hid, hname⟩
    · simp only [stepT]
      rw [heq]
      constructor
      · exact List.Nodup.sublist (List.Sublist.map _ (List.filter_sublist t)) hid
      · exact List.Nodup.sublist (List.Sublist.map _ (List.filter_sublist t)) hname
  | list => exact ⟨hid, hname⟩

/-- Processing a request sequence preserves table well-formedness. -/
theorem goodTable_runT {ops : List Op} : ∀ {t : Table}, GoodTable t →
    GoodTable (runT t ops) := by
  induction ops with
  | nil => intro t h; exact h
  | cons op ops ih => intro t h; exact ih (goodTable_stepT h op)

/-- Length accounting along a request sequence: each successful create
adds exactly one row and each successful delete removes exactly one. -/
theorem runT_length {ops : List Op} : ∀ {t : Table}, GoodTable t →
    (runT t ops).length + succDeletes t ops = t.length + succCreates t ops := by
  induction ops with
  | nil => intro t _; simp [runT, succDeletes, succCreates]
  | cons op ops ih =>
    intro t h
    have hih := ih (goodTable_stepT h op)
    cases op with
    | create body =>
      cases hc : createdId body t with
      | none =>
        have hT : stepT t (.create body) = t := by
          simp only [stepT]
          exact createdId_none hc
        have hC : isSuccCreate t (.create body) = false := by
          simp [isSuccCreate, hc]
        rw [hT] at hih
        simp only [succCreates, succDeletes, runT, hT, hC, isSuccDelete]
        omega
      | some i =>
        obtain ⟨uc, hv, hf, hi, heq⟩ := createdId_some hc
        have hT : stepT t (.create body) = t ++ [⟨nextRowId t, uc.username, uc.password⟩] := by
          simp only [stepT, heq]
        have hC : isSuccCreate t (.create body) = true := by
          simp [isSuccCreate, hc]
        have hlen : (t ++ [(⟨nextRowId t, uc.username, uc.password⟩ : User)]).length
            = t.length + 1 := by
          simp
        rw [hT] at hih
        simp only [succCreates, succDeletes, runT, hT, hC, isSuccDelete, if_true,
          Bool.false_eq_true, if_false]
        omega
    | delete raw =>
      cases hp : parsePathInt raw with
      | none =>
        have hT : stepT t (.delete raw) = t := by
          simp [stepT, route_delete_user, hp]
        have hD : isSuccDelete t (.delete raw) = false := by
          simp [isSuccDelete, hp]
        rw [hT] at hih
        simp only [succCreates, succDeletes, runT, hT, hD, isSuccCreate]
        omega
      | some uid =>
        cases hf : find_by_id t uid with
        | none =>
          have hT : stepT t (.delete raw) = t := by
            simp [stepT, route_delete_user, delete_user, hp, hf]
          have hD : isSuccDelete t (.delete raw) = false := by
            simp [isSuccDelete, hp, hf]
          rw [hT] at hih
          simp only [succCreates, succDeletes, runT, hT, hD, isSuccCreate]
          omega
        | some u =>
          have hT : stepT t (.delete raw) = t.filter (fun r => r.id != u.id) := by
            simp [stepT, route_delete_user, delete_user, hp, hf]
          have hD : isSuccDelete t (.delete raw) = true := by
            simp [isSuccDelete, hp, hf]
          have hlen : (t.filter (fun r => r.id != u.id)).length + 1 = t.length :=
            length_filter_of_nodup h.1 (find_by_id_mem hf).1
          rw [hT] at hih
          simp only [succCreates, succDeletes, runT, hT, hD, isSuccCreate, if_true,
            Bool.false_eq_true, if_false]
          omega
    | list =>
      have hT : stepT t .list = t := rfl
      rw [hT] at hih
      simp only [succCreates, succDeletes, runT, hT, isSuccCreate, isSuccDelete]
      omega

/-- Request body used to exhibit the create-response password leak. -/
def c1Body : JsonObj := [("username", .str "alice"), ("password", .str "p1")]

/-- C1: the spec claims the response payloads of create, list, and
delete never contain the password field.  List and delete declare
`response_model=UserResponse` and indeed never emit it, but create_user
declares no response_model and returns the ORM object, so its success
payload carries the password verbatim.  Evaluated at the failing input
(POST /create_user with username alice, password p1, empty table): the
create response contains the field ("password", "p1"), while the list
and delete responses for the same record do not. -/
theorem C1_code_eval :
    (post_create_user c1Body []).1 =
      .ok [("id", .num 1), ("username", .str "alice"), ("password", .str "p1")] ∧
    lookupField [("id", JsonVal.num 1), ("username", JsonVal.str "alice"),
      ("password", JsonVal.str "p1")] "password" = some (.str "p1") ∧
    (get_users [⟨1, "alice", "p1"⟩]).1 =
      .ok [[("id", .num 1), ("username", .str "alice")]] ∧
    (delete_user 1 [⟨1, "alice", "p1"⟩]).1 =
      .ok [("id", .num 1), ("username", .str "alice")] :=
  ⟨rfl, rfl, rfl, rfl⟩

/-- C2 (amended): creating with a fresh username always succeeds and
returns id nextRowId t = maxId t + 1, which is strictly greater than
every id currently in the table; ids of since-deleted rows are not
tracked and may be reassigned. -/
theorem C2_fresh_create (t : Table) (uc : UserCreate)
    (hfresh : find_by_username t uc.username = none) :
    create_user uc t =
      (.ok (encodeUserFull ⟨nextRowId t, uc.username, uc.password⟩),
       t ++ [⟨nextRowId t, uc.username, uc.password⟩]) ∧
    ∀ r ∈ t, r.id < nextRowId t := by
  constructor
  · simp [create_user, hfresh]
  · intro r hr
    exact mem_id_lt_nextRowId hr

/-- Witness for C2 on the concrete table holding only alice with id 1:
creating bob succeeds with id 2. -/
theorem C2_fresh_create_witness :
    create_user ⟨"bob", "p2"⟩ [⟨1, "alice", "p1"⟩] =
      (.ok (encodeUserFull ⟨2, "bob", "p2"⟩),
       [⟨1, "alice", "p1"⟩, ⟨2, "bob", "p2"⟩]) :=
  (C2_fresh_create [⟨1, "alice", "p1"⟩] ⟨"bob", "p2"⟩ (by rfl)).1

/-- History refuting C2 as stated: create alice (id 1), create bob
(id 2), then delete id 2. -/
def c2Ops : List Op :=
  [.create [("username", .str "alice"), ("password", .str "pa")],
   .create [("username", .str "bob"), ("password", .str "pb")],
   .delete "2"]

/-- A later create request with a fresh username. -/
def c2CarolBody : JsonObj := [("username", .str "carol"), ("password", .str "pc")]

/-- C2 counterexample: after creating alice (id 1) and bob (id 2) and
deleting id 2, the service has already assigned ids 1 and 2; creating
the fresh username carol then succeeds with id 2 again (SQLite assigns
max rowid + 1, reusing the deleted id), so the returned id is not
strictly greater than every previously assigned id. -/
theorem C2_counterexample :
    runT [] c2Ops = [⟨1, "alice", "pa"⟩] ∧
    assignedAfter [] [] c2Ops = [1, 2] ∧
    createdId c2CarolBody (runT [] c2Ops) = some 2 ∧
    ¬ (∀ j ∈ assignedAfter [] [] c2Ops, j < 2) := by
  have ha : assignedAfter [] [] c2Ops = [1, 2] := by rfl
  refine ⟨by rfl, ha, by rfl, ?_⟩
  intro h
  refine Nat.lt_irrefl 2 (h 2 ?_)
  rw [ha]
  simp

/-- C3: creating with an already-present username fails with HTTP 400
"Username already registered", the table is unchanged, and the list
response is therefore the same before and after. -/
theorem C3_duplicate_create (t : Table) (body : JsonObj) (uc : UserCreate)
    (hv : validateUserCreate body = some uc)
    (hdup : ∃ r ∈ t, r.username = uc.username) :
    post_create_user body t = (.httpError 400 "Username already registered", t) ∧
    get_users (post_create_user body t).2 = get_users t := by
  obtain ⟨r, hfind⟩ := find_by_username_isSome hdup
  have h1 : post_create_user body t = (.httpError 400 "Username already registered", t) := by
    simp [post_create_user, create_user, hv, hfind]
  exact ⟨h1, by rw [h1]⟩

/-- Witness for C3: a second create for alice against the table already
holding alice is rejected with 400 and the table is unchanged. -/
theorem C3_duplicate_create_witness :
    post_create_user [("username", .str "alice"), ("password", .str "p2")]
        [⟨1, "alice", "p1"⟩] =
      (.httpError 400 "Username already registered", [⟨1, "alice", "p1"⟩]) :=
  (C3_duplicate_create [⟨1, "alice", "p1"⟩] _ ⟨"alice", "p2"⟩ (by rfl)
    ⟨⟨1, "alice", "p1"⟩, by simp, rfl⟩).1

/-- C4: a delete request whose id matches no row fails with HTTP 404
"User not found" and leaves the table unchanged. -/
theorem C4_delete_missing (t : Table) (raw : String) (uid : Int)
    (hp : parsePathInt raw = some uid)
    (habs : ∀ r ∈ t, (r.id : Int) ≠ uid) :
    route_delete_user raw t = (.httpError 404 "User not found", t) := by
  have hf : find_by_id t uid = none := find_by_id_eq_none.mpr habs
  simp [route_delete_user, delete_user, hp, hf]

/-- Witness for C4: deleting id 2 from the table holding only id 1. -/
theorem C4_delete_missing_witness :
    route_delete_user "2" [⟨1, "alice", "p1"⟩] =
      (.httpError 404 "User not found", [⟨1, "alice", "p1"⟩]) :=
  C4_delete_missing [⟨1, "alice", "p1"⟩] "2" 2 (by rfl)
    (by intro r hr; rw [List.mem_singleton] at hr; subst hr; decide)

/-- C5: deleting an existing id returns the removed record (id and
username only), removes exactly that one row, leaves every other row in
place, and a subsequent delete of the same id fails with 404.  The
hypothesis that ids are pairwise distinct is the primary-key constraint
of the users table. -/
theorem C5_delete_existing (t : Table) (uid : Int) (u : User)
    (hnd : (t.map (fun r => r.id)).Nodup)
    (hfind : find_by_id t uid = some u) :
    (delete_user uid t).1 = .ok (encodeUserResponse u) ∧
    u ∈ t ∧
    (delete_user uid t).2.length + 1 = t.length ∧
    u ∉ (delete_user uid t).2 ∧
    (∀ r ∈ t, r ≠ u → r ∈ (delete_user uid t).2) ∧
    (∀ r ∈ (delete_user uid t).2, r ∈ t) ∧
    delete_user uid (delete_user uid t).2 =
      (.httpError 404 "User not found", (delete_user uid t).2) := by
  obtain ⟨hmem, hid⟩ := find_by_id_mem hfind
  have ht2 : (delete_user uid t).2 = t.filter (fun r => r.id != u.id) := by
    simp [delete_user, hfind]
  have h1 : (delete_user uid t).1 = .ok (encodeUserResponse u) := by
    simp [delete_user, hfind]
  have hnone : find_by_id (t.filter (fun r => r.id != u.id)) uid = none := by
    apply find_by_id_eq_none.mpr
    intro r hr he
    have h2 := (List.mem_filter.mp hr).2
    have hre : r.id = u.id := by
      have : (r.id : Int) = (u.id : Int) := by rw [he, hid]
      exact_mod_cast this
    simp [hre] at h2
  refine ⟨h1, hmem, ?_, ?_, ?_, ?_, ?_⟩
  · rw [ht2]
    exact length_filter_of_nodup hnd hmem
  · rw [ht2]
    intro hcontra
    have := (List.mem_filter.mp hcontra).2
    simp at this
  · intro r hr hne
    rw [ht2]
    refine List.mem_filter.mpr ⟨hr, ?_⟩
    have : r.id ≠ u.id := fun he => hne (id_inj_of_nodup hnd hr hmem he)
    simpa using this
  · intro r hr
    rw [ht2] at hr
    exact List.mem_of_mem_filter hr
  · rw [ht2]
    simp [delete_user, hnone]

/-- Witness for C5: deleting id 1 from the two-row table returns alice
and leaves one row. -/
theorem C5_delete_existing_witness :
    (delete_user 1 [⟨1, "alice", "p1"⟩, ⟨2, "bob", "p2"⟩]).1 =
      .ok (encodeUserResponse ⟨1, "alice", "p1"⟩) ∧
    (delete_user 1 [⟨1, "alice", "p1"⟩, ⟨2, "bob", "p2"⟩]).2.length + 1 = 2 :=
  ⟨(C5_delete_existing [⟨1, "alice", "p1"⟩, ⟨2, "bob", "p2"⟩] 1 ⟨1, "alice", "p1"⟩
      (by decide) (by rfl)).1,
   (C5_delete_existing [⟨1, "alice", "p1"⟩, ⟨2, "bob", "p2"⟩] 1 ⟨1, "alice", "p1"⟩
      (by decide) (by rfl)).2.2.1⟩

/-- A create request body carrying an extra field beyond username and
password. -/
def c6ExtraBody : JsonObj :=
  [("username", .str "alice"), ("password", .str "p1"), ("role", .str "admin")]

/-- C6 counterexample: the claim says a body with any extra field beyond
username and password is rejected with a validation error before any
persistence-layer operation runs.  In the code the pydantic model uses
the default extra-field policy, which silently ignores unknown fields:
the body with the extra "role" field passes validation, the handler
runs, and a row is inserted. -/
theorem C6_counterexample :
    validateUserCreate c6ExtraBody = some ⟨"alice", "p1"⟩ ∧
    post_create_user c6ExtraBody [] ≠ ((.validationError : RouteResult JsonObj), []) ∧
    (post_create_user c6ExtraBody []).2 = [⟨1, "alice", "p1"⟩] := by
  refine ⟨by rfl, ?_, by rfl⟩
  intro h
  have : (post_create_user c6ExtraBody []).1 = .validationError := by rw [h]
  exact absurd (by rfl : (post_create_user c6ExtraBody []).1
    = .ok (encodeUserFull ⟨1, "alice", "p1"⟩)) (by rw [this]; simp)

/-- C6 (amended): a create request is accepted exactly when the two
required string fields username and password are present: a body in
which either required field is missing (or not a string) is rejected
with a validation error before any persistence-layer operation runs and
the table is unchanged, while extra fields beyond the two are ignored
rather than rejected — they do not change the outcome of the request. -/
theorem C6_required_fields (body : JsonObj) (t : Table) :
    (((∀ s, lookupField body "username" ≠ some (.str s)) ∨
      (∀ s, lookupField body "password" ≠ some (.str s))) →
      post_create_user body t = (.validationError, t)) ∧
    (∀ (u p : String) (rest : JsonObj),
      (∀ kv ∈ rest, kv.1 ≠ "username" ∧ kv.1 ≠ "password") →
      post_create_user (("username", .str u) :: ("password", .str p) :: rest) t =
        post_create_user [("username", .str u), ("password", .str p)] t) := by
  constructor
  · intro hmiss
    have hv : validateUserCreate body = none := by
      rcases hmiss with hm | hm
      · unfold validateUserCreate
        cases hu : lookupField body "username" with
        | none => rfl
        | some v =>
          cases v with
          | num n => rfl
          | str s => exact absurd hu (hm s)
      · unfold validateUserCreate
        cases hu : lookupField body "username" with
        | none => rfl
        | some v =>
          cases v with
          | num n => rfl
          | str s =>
            cases hp : lookupField body "password" with
            | none => rfl
            | some w =>
              cases w with
              | num n => rfl
              | str s2 => exact absurd hp (hm s2)
    simp [post_create_user, hv]
  · intro u p rest hrest
    have hv : validateUserCreate (("username", .str u) :: ("password", .str p) :: rest)
        = some ⟨u, p⟩ := by rfl
    have hv2 : validateUserCreate [("username", .str u), ("password", .str p)]
        = some ⟨u, p⟩ := by rfl
    simp [post_create_user, hv, hv2]

/-- Witness for C6: a body missing the password field is rejected with
the table untouched, and the extra-field body from the counterexample
behaves exactly like the same body without the extra field. -/
theorem C6_required_fields_witness :
    post_create_user [("username", .str "a")] [] =
      ((.validationError : RouteResult JsonObj), []) ∧
    post_create_user c6ExtraBody [] =
      post_create_user [("username", .str "alice"), ("password", .str "p1")] [] := by
  constructor
  · exact (C6_required_fields [("username", .str "a")] []).1
      (Or.inr (fun s h => by simp [lookupField] at h))
  · have h := (C6_required_fields c6ExtraBody []).2 "alice" "p1" [("role", .str "admin")]
      (by intro kv hkv
          rw [List.mem_singleton] at hkv
          subst hkv
          exact ⟨by decide, by decide⟩)
    exact h

/-- C7: in every state reachable from the empty table by a sequence of
create, list, and delete requests processed one at a time, no two rows
of the users table carry the same username. -/
theorem C7_username_unique (ops : List Op) :
    ((runT [] ops).map (fun r => r.username)).Nodup := by
  have hg : GoodTable ([] : Table) := ⟨by simp, by simp⟩
  exact (goodTable_runT hg).2

/-- C8: starting from the empty table, after any request sequence with
N successful creates and M successful deletes, the list route returns
exactly the table rows, there are N - M of them, and their ids are
pairwise distinct. -/
theorem C8_list_count (ops : List Op) :
    (get_users (runT [] ops)).1 = .ok ((runT [] ops).map encodeUserResponse) ∧
    ((runT [] ops).map encodeUserResponse).length
      = succCreates [] ops - succDeletes [] ops ∧
    ((runT [] ops).map (fun r => r.id)).Nodup := by
  have hg : GoodTable ([] : Table) := ⟨by simp, by simp⟩
  have hlen := @runT_length ops [] hg
  simp only [List.length_nil] at hlen
  refine ⟨rfl, ?_, (goodTable_runT hg).1⟩
  rw [List.length_map]
  omega

/-- C9: a delete request whose path parameter does not coerce to an
integer is rejected with a validation error (not the 404 not-found
error), the handler body never runs, and the table is unchanged. -/
theorem C9_delete_bad_path (raw : String) (t : Table)
    (hp : parsePathInt raw = none) :
    route_delete_user raw t = (.validationError, t) ∧
    (route_delete_user raw t).1 ≠ .httpError 404 "User not found" := by
  have h1 : route_delete_user raw t = (.validationError, t) := by
    simp [route_delete_user, hp]
  refine ⟨h1, ?_⟩
  rw [h1]
  simp

/-- Witness for C9 at the non-numeric path segment "abc". -/
theorem C9_delete_bad_path_witness :
    route_delete_user "abc" [⟨1, "alice", "p1"⟩] =
      ((.validationError : RouteResult JsonObj), [⟨1, "alice", "p1"⟩]) :=
  (C9_delete_bad_path "abc" [⟨1, "alice", "p1"⟩] (by rfl)).1

/-- The create request body whose username and password are both the
empty string. -/
def c10Body : JsonObj := [("username", .str ""), ("password", .str "")]

/-- C10: the create operation constrains username and password only by
type: the body with empty-string username and password passes
validation, and it then behaves exactly like any other create — it
succeeds with the next row id when no row has the empty username, and
it fails with the duplicate error when one does. -/
theorem C10_empty_strings (t : Table) :
    validateUserCreate c10Body = some ⟨"", ""⟩ ∧
    (find_by_username t "" = none →
      post_create_user c10Body t =
        (.ok (encodeUserFull ⟨nextRowId t, "", ""⟩), t ++ [⟨nextRowId t, "", ""⟩])) ∧
    (∀ u, find_by_username t "" = some u →
      post_create_user c10Body t = (.httpError 400 "Username already registered", t)) := by
  have hv : validateUserCreate c10Body = some ⟨"", ""⟩ := by rfl
  refine ⟨hv, ?_, ?_⟩
  · intro hf
    simp [post_create_user, create_user, hv, hf]
  · intro u hf
    simp [post_create_user, create_user, hv, hf]

/-- Witness for C10: on the empty table the all-empty-strings create
succeeds and inserts the row with id 1. -/
theorem C10_empty_strings_witness :
    post_create_user c10Body [] =
      (.ok (encodeUserFull ⟨1, "", ""⟩), [⟨1, "", ""⟩]) :=
  (C10_empty_strings []).2.1 (by rfl)

end App
